import Mathlib

/-!
Shallow embedding of the Dasharo Openness-Score core (src/coreboot.py and
src/uefi.py) and proofs about its classification, normalization and
recursive volume-walk logic.

Python integers are modelled as Lean Int (arbitrary precision, no overflow).
Python dictionaries keyed by consecutive indices are modelled as Lean lists
in insertion order.  A Python runtime error (KeyError on a missing dict key,
ZeroDivisionError) is modelled by the embedded function returning none.
The float division used in the NVAR-ratio heuristic is modelled by exact
rational division.
-/

namespace OpennessScore

/-- One CBFS file record, as parsed by CBFSImage._parse_cbfs_files from one
line of cbfstool print output. -/
structure CbfsFile where
  filename : String
  offset : Int
  filetype : String
  size : Int
  compression : String
deriving DecidableEq, Repr

/-- The four size accumulators kept by every container. -/
structure CBFSSizes where
  open_code_size : Int
  closed_code_size : Int
  data_size : Int
  empty_size : Int
deriving DecidableEq, Repr

/-- The five classification lists kept by CBFSImage. -/
structure CBFSFileLists where
  open_code_files : List CbfsFile
  closed_code_files : List CbfsFile
  data_files : List CbfsFile
  empty_files : List CbfsFile
  uncategorized_files : List CbfsFile
deriving DecidableEq, Repr

/-- CBFSImage._sum_sizes: sum of the size field over a list of files. -/
def sumSizes (files : List CbfsFile) : Int :=
  (files.map CbfsFile.size).sum

/-- CBFSImage.OPEN_SOURCE_FILETYPES. -/
def OPEN_SOURCE_FILETYPES : List String :=
  ["bootblock", "stage", "simple elf", "fit_payload"]

/-- CBFSImage.CLOSED_SOURCE_FILETYPES. -/
def CLOSED_SOURCE_FILETYPES : List String :=
  ["optionrom", "vsa", "mbi", "microcode", "fsp", "mrc", "mma", "efi",
   "amdfw"]

/-- CBFSImage.DATA_FILETYPES. -/
def DATA_FILETYPES : List String :=
  ["cbfs header", "bootsplash", "intel_fit", "cmos_default",
   "cmos_layout", "spd", "mrc_cache", "struct"]

/-- CBFSImage.CLOSED_SOURCE_EXCEPTIONS. -/
def CLOSED_SOURCE_EXCEPTIONS : List String :=
  ["fallback/refcode", "fallback/secure_os", "fallback/dram",
   "fallback/qcsdi", "fallback/qclib", "fallback/pmiccfg",
   "fallback/dcb", "fallback/dcb_longsys1p8", "fallback/aop",
   "fallback/uart_fw", "fallback/spi_fw", "fallback/i2c_fw",
   "fallback/cpucp", "fallback/shrm", "fallback/gsi_fw"]

/-- CBFSImage.RAW_DATA_FILES. -/
def RAW_DATA_FILES : List String :=
  ["config", "revision", "build_info", "vbt.bin", "payload_config",
   "payload_revision", "etc/grub.cfg", "logo.bmp", "rt8168-macaddress",
   "atl1e-macaddress", "wifi_sar_defaults.hex", "ecrw.hash", "pdrw.hash",
   "oem.bin", "sbom", "boot_policy_manifest.bin", "key_manifest.bin",
   "txt_bios_policy.bin", "apu/amdfw_a", "apu/amdfw_b", "me_rw.hash",
   "me_rw.version", "vboot_public_key.bin"]

/-- CBFSImage.RAW_OPEN_SOURCE_FILES. -/
def RAW_OPEN_SOURCE_FILES : List String :=
  ["fallback/dsdt.aml", "vgaroms/seavgabios.bin", "pagetables", "pt",
   "pdpt", "ecrw", "pdrw", "sff8104-linux.dtb", "stm.bin", "fallback/DTB",
   "oemmanifest.bin", "smcbiosinfo.bin", "genroms/pxe.rom"]

/-- CBFSImage.RAW_CLOSED_SOURCE_FILES. -/
def RAW_CLOSED_SOURCE_FILES : List String :=
  ["doom.wad", "ecfw1.bin", "ecfw2.bin", "apu/ecfw", "ec/ecfw",
   "sch5545_ecfw.bin", "txt_bios_acm.bin", "txt_sinit_acm.bin",
   "apu/amdfw_a_body", "apu/amdfw_b_body", "smu_fw", "smu_fw2",
   "dmic-1ch-48khz-16b.bin", "dmic-2ch-48khz-16b.bin", "me_rw",
   "dmic-4ch-48khz-16b.bin", "max98357-render-2ch-48khz-24b.bin",
   "nau88l25-2ch-48khz-24b.bin", "max98927-render-2ch-48khz-24b.bin",
   "max98927-render-2ch-48khz-16b.bin", "dmic-2ch-48khz-32b.bin",
   "rt5514-capture-4ch-48khz-16b.bin", "dmic-4ch-48khz-32b.bin",
   "max98373-render-2ch-48khz-24b.bin", "dialog-2ch-48khz-24b.bin",
   "max98373-render-2ch-48khz-16b.bin", "rt5682-2ch-48khz-24b.bin",
   "rt5663-2ch-48khz-24b.bin", "ssm4567-render-2ch-48khz-24b.bin",
   "ssm4567-capture-4ch-48khz-32b.bin", "pcm_allinone_lp4_3200.bin",
   "pcm_allinone_lp4_3733.bin", "sspm.bin", "spm_firmware.bin", "AGESA",
   "cse_iom", "cse_nphy", "pse.bin", "rmu.bin", "tegra_mtc.bin", "tz.mbn",
   "cdt.mbn", "ddr.mbn", "rpm.mbn"]

/-- CBFSImage._classify_file, src/coreboot.py lines 385-411.  The state of
the five lists is threaded explicitly; the iPXE flags and ROM id are the
attributes set earlier by CBFSImage._check_for_ipxe.  The translation keeps
the exact branch structure of the source, including the raw-file iPXE
branch whose inner if has no else: when ipxe_present is true, edk2_ipxe is
false and the filename is not the computed ROM name, no list is changed. -/
def classifyFile (ipxe_present edk2_ipxe : Bool) (ipxe_rom_id : String)
    (st : CBFSFileLists) (f : CbfsFile) : CBFSFileLists :=
  if f.filetype ∈ OPEN_SOURCE_FILETYPES then
    if f.filename ∉ CLOSED_SOURCE_EXCEPTIONS then
      { st with open_code_files := st.open_code_files ++ [f] }
    else
      { st with closed_code_files := st.closed_code_files ++ [f] }
  else if f.filetype ∈ CLOSED_SOURCE_FILETYPES then
    { st with closed_code_files := st.closed_code_files ++ [f] }
  else if f.filetype ∈ DATA_FILETYPES then
    { st with data_files := st.data_files ++ [f] }
  else if f.filetype = "null" then
    { st with empty_files := st.empty_files ++ [f] }
  else if f.filetype = "raw" then
    if f.filename ∈ RAW_DATA_FILES then
      { st with data_files := st.data_files ++ [f] }
    else if f.filename ∈ RAW_OPEN_SOURCE_FILES then
      { st with open_code_files := st.open_code_files ++ [f] }
    else if f.filename ∈ RAW_CLOSED_SOURCE_FILES then
      { st with closed_code_files := st.closed_code_files ++ [f] }
    else if ipxe_present = true ∧ edk2_ipxe = false then
      if f.filename = "pci" ++ ipxe_rom_id ++ ".rom" then
        { st with open_code_files := st.open_code_files ++ [f] }
      else
        st
    else
      { st with uncategorized_files := st.uncategorized_files ++ [f] }
  else
    { st with uncategorized_files := st.uncategorized_files ++ [f] }

/-- CBFSImage._normalize_sizes, src/coreboot.py lines 413-441.  The files
list is cbfs_files in parse order; the Python access
cbfs_files[num_files-1] raises KeyError when the container parsed zero
files, modelled by returning none. -/
def cbfsNormalizeSizes (cbfs_size : Int) (files : List CbfsFile)
    (s : CBFSSizes) : Option CBFSSizes :=
  match files.getLast? with
  | none => none
  | some last =>
    let last_file_end := last.size + last.offset
    let truncated_size := cbfs_size - last_file_end
    let s1 := if truncated_size > 64 then
                { s with empty_size := s.empty_size + truncated_size }
              else s
    let metadata_size := cbfs_size - (s1.open_code_size + s1.empty_size +
                                      s1.closed_code_size + s1.data_size)
    some { s1 with data_size := s1.data_size + metadata_size }

/-- One parsed Kconfig option from the embedded config file. -/
structure KconfigOpt where
  option : String
  value : String
deriving DecidableEq, Repr

/-- CBFSImage._get_kconfig_value: value of the first option with the given
name, none when no option carries that name. -/
def getKconfigValue (opts : List KconfigOpt) (o : String) : Option String :=
  match opts with
  | [] => none
  | k :: rest => if k.option = o then some k.value else getKconfigValue rest o

/-- The three attributes set by CBFSImage._check_for_ipxe. -/
structure IpxeState where
  edk2_ipxe : Bool
  ipxe_present : Bool
  ipxe_rom_id : String
deriving DecidableEq, Repr

/-- CBFSImage._check_for_ipxe, src/coreboot.py lines 488-508.  Both flags
start false; edk2_ipxe and ipxe_present become true when
EDK2_ENABLE_IPXE=y; otherwise ipxe_present becomes true when PXE=y and no
PXE_ROM option exists.  The ROM id falls back to the literal 10ec,8168 when
PXE_ROM_ID is absent. -/
def checkForIpxe (opts : List KconfigOpt) : IpxeState :=
  let flags : Bool × Bool :=
    if getKconfigValue opts "EDK2_ENABLE_IPXE" = some "y" then
      (true, true)
    else if getKconfigValue opts "PXE" = some "y" then
      (false, decide (getKconfigValue opts "PXE_ROM" = none))
    else
      (false, false)
  let rid : String :=
    match getKconfigValue opts "PXE_ROM_ID" with
    | none => "10ec,8168"
    | some v => v
  { edk2_ipxe := flags.1, ipxe_present := flags.2, ipxe_rom_id := rid }

/-- One flashmap region record, as parsed by
DasharoCorebootImage._parse_cb_fmap_layout. -/
structure Region where
  name : String
  offset : Int
  size : Int
  attributes : String
deriving DecidableEq, Repr

/-- DasharoCorebootImage.DATA_REGIONS. -/
def DATA_REGIONS : List String :=
  ["SI_DESC", "RECOVERY_MRC_CACHE", "RW_MRC_CACHE", "RW_VPD",
   "SMMSTORE", "SHARED_DATA", "VBLOCK_DEV", "RW_NVRAM", "GBB",
   "CONSOLE", "RW_FWID_A", "RW_FWID_B", "VBLOCK_A", "RO_VPD",
   "VBLOCK_B", "HSPHY_FW", "RW_ELOG", "FMAP", "RO_FRID",
   "RO_FRID_PAD", "SPD_CACHE", "FPF_STATUS", "RO_LIMITS_CFG",
   "RW_DDR_TRAINING"]

/-- DasharoCorebootImage.CODE_REGIONS. -/
def CODE_REGIONS : List String := ["BOOTBLOCK"]

/-- DasharoCorebootImage.BLOB_REGIONS. -/
def BLOB_REGIONS : List String :=
  ["RW_VBIOS_CACHE", "ME_RW_A", "ME_RW_B", "IFWI", "SIGN_CSE", "SI_ME"]

/-- DasharoCorebootImage.SKIP_REGIONS. -/
def SKIP_REGIONS : List String :=
  ["RW_MISC", "UNIFIED_MRC_CACHE", "RW_SHARED", "SI_ALL",
   "RW_SECTION_A", "RW_SECTION_B", "WP_RO", "RO_SECTION"]

/-- DasharoCorebootImage.EMPTY_REGIONS. -/
def EMPTY_REGIONS : List String := ["UNUSED"]

/-- DasharoCorebootImage._region_is_cbfs. -/
def regionIsCbfs (r : Region) : Bool :=
  r.attributes = "CBFS"

/-- The five classification lists kept by DasharoCorebootImage. -/
structure RegionLists where
  open_code_regions : List Region
  closed_code_regions : List Region
  data_regions : List Region
  empty_regions : List Region
  uncategorized_regions : List Region
deriving DecidableEq, Repr

/-- DasharoCorebootImage._classify_region, src/coreboot.py lines 130-153,
one step of the classification loop.  CBFS regions, regions in
SKIP_REGIONS and regions with the read-only attribute are skipped. -/
def classifyRegion (acc : RegionLists) (r : Region) : RegionLists :=
  if regionIsCbfs r then acc
  else if r.name ∈ SKIP_REGIONS then acc
  else if r.name ∈ CODE_REGIONS then
    { acc with open_code_regions := acc.open_code_regions ++ [r] }
  else if r.name ∈ BLOB_REGIONS then
    { acc with closed_code_regions := acc.closed_code_regions ++ [r] }
  else if r.name ∈ EMPTY_REGIONS then
    { acc with empty_regions := acc.empty_regions ++ [r] }
  else if r.name ∈ DATA_REGIONS then
    { acc with data_regions := acc.data_regions ++ [r] }
  else if r.attributes = "read-only" then acc
  else
    { acc with uncategorized_regions := acc.uncategorized_regions ++ [r] }

/-- DasharoCorebootImage._sum_sizes over regions. -/
def sumRegionSizes (regions : List Region) : Int :=
  (regions.map Region.size).sum

/-- DasharoCorebootImage._normalize_sizes, src/coreboot.py lines 181-195.
The access fmap_regions[0] raises KeyError on an image with zero parsed
regions, modelled by none.  When the first parsed region has a nonzero
offset, that offset is added to closed_code_size.  The final sum check only
prints a warning on mismatch with image_size and alters no state, so
image_size does not occur in the result. -/
def cbImageNormalize (image_size : Int) (regions : List Region)
    (s : CBFSSizes) : Option CBFSSizes :=
  match regions.head? with
  | none => none
  | some r0 =>
    some (if r0.offset ≠ 0 then
            { s with closed_code_size := s.closed_code_size + r0.offset }
          else s)

/-- DasharoCorebootImage._calculate_metrics, src/coreboot.py lines 155-176:
classify all regions in parse order, sum the four buckets, fold
uncategorized regions into closed-source, add the four bucket totals of
every child CBFS container, then normalize. -/
def cbImageCalculateMetrics (image_size : Int) (regions : List Region)
    (cbfsImages : List CBFSSizes) : Option CBFSSizes :=
  let L := regions.foldl classifyRegion ⟨[], [], [], [], []⟩
  let s : CBFSSizes :=
    { open_code_size := sumRegionSizes L.open_code_regions,
      closed_code_size := sumRegionSizes L.closed_code_regions +
                          sumRegionSizes L.uncategorized_regions,
      data_size := sumRegionSizes L.data_regions,
      empty_size := sumRegionSizes L.empty_regions }
  let s := cbfsImages.foldl (fun s c =>
    { open_code_size := s.open_code_size + c.open_code_size,
      closed_code_size := s.closed_code_size + c.closed_code_size,
      data_size := s.data_size + c.data_size,
      empty_size := s.empty_size + c.empty_size }) s
  cbImageNormalize image_size regions s

/-- One UEFI report entry, as parsed by UEFIImage._parse_uefi_image.  A
base of -1 is the sentinel stored for the textual base N/A of compressed
entries. -/
structure UefiEntry where
  type : String
  subtype : String
  base : Int
  size : Int
  name : String
deriving DecidableEq, Repr

/-- A constructed UEFIVolume: its bounds, accepted child entries, nested
volumes and the four size accumulators (open_code_size is initialized to 0
and never written by any UEFIVolume method). -/
structure UEFIVolume where
  volume_base : Int
  volume_size : Int
  volume_entries : List UefiEntry
  nested_volumes : List UEFIVolume
  open_code_size : Int
  closed_code_size : Int
  data_size : Int
  empty_size : Int

/-- UEFIVolume._entry_is_region. -/
def entryIsRegion (e : UefiEntry) : Bool :=
  e.type = "Region"

/-- UEFIVolume._entry_is_self_volume. -/
def entryIsSelfVolume (vb vsize : Int) (e : UefiEntry) : Bool :=
  e.type = "Volume" ∧ e.base = vb ∧ e.size = vsize

/-- UEFIVolume._entry_is_inside_volume, src/uefi.py lines 427-456.  For an
entry with a concrete base: regions and the volume itself are rejected, an
entry starting outside the interval from volume_base to volume_end is
rejected, and an entry fully contained in it is accepted.  For a
compressed entry (base -1): accepted exactly when at least one entry has
already been accepted into volume_entries. -/
def entryIsInsideVolume (vb vsize : Int) (volume_entries : List UefiEntry)
    (e : UefiEntry) : Bool :=
  if e.base ≠ -1 then
    if entryIsRegion e then false
    else if entryIsSelfVolume vb vsize e then false
    else if e.base < vb ∨ e.base ≥ vb + vsize then false
    else if e.base ≥ vb ∧ e.base + e.size ≤ vb + vsize then true
    else false
  else
    if volume_entries.length > 0 then true else false

/-- UEFIVolume._is_end_of_volume, src/uefi.py lines 458-467. -/
def isEndOfVolume (vb vsize : Int) (e : UefiEntry) : Bool :=
  if e.base = -1 then false
  else if e.base > vb + vsize then true
  else if e.base + e.size > vb + vsize then true
  else false

/-- UEFIVolume._entry_is_nested_volume, src/uefi.py lines 483-494: an
uncompressed FFSv2 volume entry whose interval is fully contained in the
current volume. -/
def entryIsNestedVolume (vb vsize : Int) (e : UefiEntry) : Bool :=
  if e.type = "Volume" ∧ e.size ≠ -1 ∧ e.subtype = "FFSv2" then
    if e.base < vb ∨ e.base ≥ vb + vsize then false
    else if e.base ≥ vb ∧ e.base + e.size ≤ vb + vsize then true
    else false
  else false

/-- Substring test: Python expression x in s over strings. -/
def strContainsSub (hay needle : String) : Bool :=
  let h := hay.toList
  let n := needle.toList
  (List.range (h.length + 1)).any (fun i => n.isPrefixOf (h.drop i))

/-- UEFIVolume._is_entry_empty_padding. -/
def isEntryEmptyPadding (e : UefiEntry) : Bool :=
  e.base ≠ -1 ∧ e.size ≠ 0 ∧ e.type = "Padding" ∧
    (e.subtype = "Empty (0xFF)" ∨ e.subtype = "Empty (0x00)")

/-- UEFIVolume._is_entry_non_empty_padding. -/
def isEntryNonEmptyPadding (e : UefiEntry) : Bool :=
  e.base ≠ -1 ∧ e.size ≠ 0 ∧ e.type = "Padding" ∧ e.subtype = "Non-empty"

/-- UEFIVolume._is_entry_free_space. -/
def isEntryFreeSpace (e : UefiEntry) : Bool :=
  e.base ≠ -1 ∧ e.size ≠ 0 ∧ e.type = "Free space"

/-- UEFIVolume._is_entry_empty_pad_file. -/
def isEntryEmptyPadFile (e : UefiEntry) : Bool :=
  e.base ≠ -1 ∧ e.size ≠ 0 ∧ e.type = "File" ∧ e.subtype = "Pad" ∧
    strContainsSub e.name "Pad-file"

/-- UEFIVolume._is_entry_non_empty_pad_file. -/
def isEntryNonEmptyPadFile (e : UefiEntry) : Bool :=
  e.base ≠ -1 ∧ e.size ≠ 0 ∧ e.type = "File" ∧ e.subtype = "Pad" ∧
    strContainsSub e.name "Non-empty pad-file"

/-- One step of UEFIVolume._classify_entries, src/uefi.py lines 522-536:
first-match classification of one child entry, appending only to the
data_files list (first component) or the empty_files list (second
component).  The open_code_files and closed_code_files lists of a volume
are never appended to. -/
def classifyVolStep (acc : List UefiEntry × List UefiEntry) (e : UefiEntry) :
    List UefiEntry × List UefiEntry :=
  if isEntryEmptyPadding e then (acc.1, acc.2 ++ [e])
  else if isEntryNonEmptyPadding e then (acc.1 ++ [e], acc.2)
  else if isEntryFreeSpace e then (acc.1, acc.2 ++ [e])
  else if isEntryEmptyPadFile e then (acc.1, acc.2 ++ [e])
  else if isEntryNonEmptyPadFile e then (acc.1 ++ [e], acc.2)
  else acc

/-- UEFIVolume._classify_entries over the whole child list; the result is
the pair of data_files and empty_files. -/
def classifyVolEntries (ve : List UefiEntry) :
    List UefiEntry × List UefiEntry :=
  ve.foldl classifyVolStep ([], [])

/-- UEFIVolume._sum_sizes over UEFI entries. -/
def sumEntrySizes (entries : List UefiEntry) : Int :=
  (entries.map UefiEntry.size).sum

/-- Number of children of type NVAR entry, the counting loop of
UEFIVolume._is_nvar_store_volume. -/
def nvarCount (ve : List UefiEntry) : Nat :=
  (ve.filter (fun e => e.type = "NVAR entry")).length

/-- UEFIVolume._is_nvar_store_volume, src/uefi.py lines 599-611.  The
Python expression (nvar_count * 100) / len(volume_entries) is true
division producing the ratio nvar_count * 100 / length exactly
(both operands are machine-exact nonnegative integers); it raises
ZeroDivisionError on a volume with zero child entries, modelled by none.
The comparison ratio >= NVAR_VOLUME_THRESHOLD with threshold 90 is encoded
by the equivalent integer comparison 90 * length <= nvar_count * 100; the
lemma isNvarStoreVolume_ratio below proves this definition equal to the
literal rational-division comparison of the source. -/
def isNvarStoreVolume (ve : List UefiEntry) : Option Bool :=
  if ve.length = 0 then none
  else some (decide (90 * ve.length ≤ nvarCount ve * 100))

/-- The embedded NVAR test agrees with the literal source expression
(nvar_count * 100) / len(volume_entries) >= 90 read over the exact
rationals, whenever the division is defined. -/
theorem isNvarStoreVolume_ratio (ve : List UefiEntry) (h : ve.length ≠ 0) :
    isNvarStoreVolume ve =
      some (decide ((90 : ℚ) ≤ ((nvarCount ve : ℚ) * 100) / (ve.length : ℚ))) := by
  unfold isNvarStoreVolume
  rw [if_neg h]
  congr 1
  have hpos : (0 : ℚ) < (ve.length : ℚ) := by
    exact_mod_cast Nat.pos_of_ne_zero h
  have hiff : (90 : ℚ) ≤ ((nvarCount ve : ℚ) * 100) / (ve.length : ℚ) ↔
      90 * ve.length ≤ nvarCount ve * 100 := by
    rw [le_div_iff₀ hpos]
    exact_mod_cast Iff.rfl
  simp only [decide_eq_decide]
  exact hiff.symm

/-- UEFIVolume._normalize_sizes, src/uefi.py lines 622-637: fold the
closed, data and empty totals of every nested volume into the current
sizes, then add the unclassified remainder of the volume to data_size for
an NVAR store volume and to closed_code_size otherwise.  Returns the
triple of closed_code_size, data_size and empty_size; none models the
ZeroDivisionError of the NVAR ratio on zero child entries. -/
def volNormalize (vsize : Int) (nested : List UEFIVolume)
    (ve : List UefiEntry) (closed data empty : Int) :
    Option (Int × Int × Int) :=
  let closed1 := closed + (nested.map UEFIVolume.closed_code_size).sum
  let data1 := data + (nested.map UEFIVolume.data_size).sum
  let empty1 := empty + (nested.map UEFIVolume.empty_size).sum
  let classified_files_size := empty1 + closed1 + data1
  match isNvarStoreVolume ve with
  | none => none
  | some true =>
    some (closed1, data1 + (vsize - classified_files_size), empty1)
  | some false =>
    some (closed1 + (vsize - classified_files_size), data1, empty1)

mutual

/-- UEFIVolume.__init__ for the entry at index idx of the parsed entry
list: record base and size from that entry, run _parse_volume_files
(the scan loop, parseVolumeLoop below) and then _calculate_metrics
(src/uefi.py lines 613-620): classify the accepted children, sum the data
and empty lists (closed_code_files is never appended to, so its sum is 0),
and run _normalize_sizes.  The fuel argument only bounds the recursion
depth of the embedding; every run of the Python code is reproduced by any
sufficiently large fuel.  none models a Python exception escaping the
constructor (the ZeroDivisionError of the NVAR ratio) or exhausted fuel. -/
def mkVolume (fuel : Nat) (entries : List UefiEntry) (idx : Nat) :
    Option UEFIVolume :=
  match fuel with
  | 0 => none
  | f + 1 =>
    match entries[idx]? with
    | none => none
    | some head =>
      match parseVolumeLoop f entries head.base head.size (idx + 1) [] [] with
      | none => none
      | some (ve, nested) =>
        let cls := classifyVolEntries ve
        match volNormalize head.size nested ve 0 (sumEntrySizes cls.1)
            (sumEntrySizes cls.2) with
        | none => none
        | some (c, d, e) =>
          some { volume_base := head.base, volume_size := head.size,
                 volume_entries := ve, nested_volumes := nested,
                 open_code_size := 0, closed_code_size := c,
                 data_size := d, empty_size := e }

/-- The loop body of UEFIVolume._parse_volume_files, src/uefi.py lines
496-515, iterating i over range(volume_idx + 1, len(uefi_entries)) with
the Python for-range semantics: the statement i += len(nested) in the
source rebinds the loop variable, which range iteration immediately
overwrites, so it does not skip anything; the loop simply proceeds to
i + 1, exactly as translated here.  An accepted entry that is a nested
FFSv2 volume triggers a recursive construction; any other accepted entry
is appended to volume_entries; the volume self entry is skipped; an entry
past the volume end breaks the loop. -/
def parseVolumeLoop (fuel : Nat) (entries : List UefiEntry) (vb vsize : Int)
    (i : Nat) (accE : List UefiEntry) (accN : List UEFIVolume) :
    Option (List UefiEntry × List UEFIVolume) :=
  match fuel with
  | 0 => none
  | f + 1 =>
    match entries[i]? with
    | none => some (accE, accN)
    | some e =>
      if entryIsInsideVolume vb vsize accE e then
        if entryIsNestedVolume vb vsize e then
          match mkVolume f entries i with
          | none => none
          | some nv =>
            parseVolumeLoop f entries vb vsize (i + 1) accE (accN ++ [nv])
        else
          let accE1 := accE ++ [e]
          if entryIsSelfVolume vb vsize e then
            parseVolumeLoop f entries vb vsize (i + 1) accE1 accN
          else if isEndOfVolume vb vsize e then
            some (accE1, accN)
          else
            parseVolumeLoop f entries vb vsize (i + 1) accE1 accN
      else
        if entryIsSelfVolume vb vsize e then
          parseVolumeLoop f entries vb vsize (i + 1) accE accN
        else if isEndOfVolume vb vsize e then
          some (accE, accN)
        else
          parseVolumeLoop f entries vb vsize (i + 1) accE accN

end

/-- The four size accumulators of UEFIImage. -/
structure UEFIImageSizes where
  open_code_size : Int
  closed_code_size : Int
  data_size : Int
  empty_size : Int
deriving DecidableEq, Repr

/-- UEFIImage._normalize_sizes, src/uefi.py lines 281-291: the whole
difference between image_size and the sum of the four buckets is added to
data_size (and an error is printed when nonzero, with no state change). -/
def uefiImageNormalize (image_size : Int) (s : UEFIImageSizes) :
    UEFIImageSizes :=
  let full_size := s.open_code_size + s.empty_size + s.closed_code_size +
                   s.data_size
  { s with data_size := s.data_size + (image_size - full_size) }

/-- One iteration of the volume loop of UEFIImage._calculate_metrics:
add the four bucket totals of one top-level volume. -/
def uefiImageAddVolume (s : UEFIImageSizes) (v : UEFIVolume) :
    UEFIImageSizes :=
  { open_code_size := s.open_code_size + v.open_code_size,
    closed_code_size := s.closed_code_size + v.closed_code_size,
    data_size := s.data_size + v.data_size,
    empty_size := s.empty_size + v.empty_size }

/-- UEFIImage._calculate_metrics, src/uefi.py lines 265-279: open-source
starts at 0 and is never added to except from the volumes; closed, data
and empty start from the sums of the classified region and padding lists;
every top-level volume contributes its four bucket totals; finally
_normalize_sizes folds the remainder into data_size. -/
def uefiImageCalculateMetrics (image_size : Int)
    (closed_code_regions data_regions empty_spaces : List UefiEntry)
    (volumes : List UEFIVolume) : UEFIImageSizes :=
  let s : UEFIImageSizes :=
    { open_code_size := 0,
      closed_code_size := sumEntrySizes closed_code_regions,
      data_size := sumEntrySizes data_regions,
      empty_size := sumEntrySizes empty_spaces }
  uefiImageNormalize image_size (volumes.foldl uefiImageAddVolume s)

/-! Concrete example data used by the closed theorems below: a parsed UEFI
report with an outer FFSv2 volume at index 0, a nested FFSv2 volume inside
it at index 1, and one file entry at index 2 that lies inside the nested
volume (and therefore also inside the outer volume). -/

/-- The outer FFSv2 volume entry, base 0, size 100. -/
def exE0 : UefiEntry := ⟨"Volume", "FFSv2", 0, 100, "- OuterFV"⟩

/-- A nested FFSv2 volume entry, base 16, size 48, contained in exE0. -/
def exE1 : UefiEntry := ⟨"Volume", "FFSv2", 16, 48, "-- NestedFV"⟩

/-- A file entry, base 20, size 20, contained in the nested volume exE1. -/
def exE2 : UefiEntry := ⟨"File", "PE32 image", 20, 20, "--- Driver"⟩

/-- The parsed entry list of the example image. -/
def exEntries : List UefiEntry := [exE0, exE1, exE2]

/-- The nested volume the walker constructs for exE1: it accepts exE2 as
its only child and, being a regular (non NVAR) volume, folds its whole
unclassified remainder of 48 bytes into closed_code_size. -/
def exNestedVolume : UEFIVolume := ⟨16, 48, [exE2], [], 0, 48, 0, 0⟩

/-- The outer volume the walker constructs for exE0.  Because the source
rebinds the for-range loop variable instead of skipping the entries
consumed by the nested volume, exE2 is accepted a second time into the
outer volume_entries list. -/
def exOuterVolume : UEFIVolume := ⟨0, 100, [exE2], [exNestedVolume], 0, 100, 0, 0⟩

/-- A raw CBFS file whose name is in none of the three raw name lists and
is not the iPXE ROM name. -/
def exRawDropped : CbfsFile := ⟨"unknown_blob.bin", 0, "raw", 100, "none"⟩

/-- A Kconfig option list holding two PXE options, the first with value n,
the second with value y. -/
def exOptsDup : List KconfigOpt := [⟨"PXE", "n"⟩, ⟨"PXE", "y"⟩]

/-! Invariants of the recursive volume walk, proved for every volume a run
of the walker constructs, at every recursion depth. -/

/-- An entry is compressed (base -1) or its interval lies within the
volume interval. -/
def entryWithinVolume (vb vsize : Int) (e : UefiEntry) : Prop :=
  e.base = -1 ∨ (vb ≤ e.base ∧ e.base + e.size ≤ vb + vsize)

/-- The first entry of the list, when it exists, has a concrete base. -/
def headConcrete (l : List UefiEntry) : Prop :=
  ∀ e, l.head? = some e → e.base ≠ -1

/-- Recursive containment invariant of a constructed volume: every
accepted child is compressed or lies within the volume bounds, the first
accepted child has a concrete base, and the same holds in every nested
volume. -/
inductive VolInv : UEFIVolume → Prop where
  | intro (v : UEFIVolume)
      (hentries : ∀ e ∈ v.volume_entries,
        entryWithinVolume v.volume_base v.volume_size e)
      (hhead : headConcrete v.volume_entries)
      (hnested : ∀ n ∈ v.nested_volumes, VolInv n) : VolInv v

/-- Recursive bucket-closure invariant: the four buckets of the volume sum
exactly to its size, and the same holds in every nested volume. -/
inductive SumInv : UEFIVolume → Prop where
  | intro (v : UEFIVolume)
      (hsum : v.open_code_size + v.closed_code_size + v.data_size +
              v.empty_size = v.volume_size)
      (hnested : ∀ n ∈ v.nested_volumes, SumInv n) : SumInv v

/-- Recursive open-source-is-zero invariant: the volume reports zero
open-source bytes, and the same holds in every nested volume. -/
inductive OpenZero : UEFIVolume → Prop where
  | intro (v : UEFIVolume)
      (hopen : v.open_code_size = 0)
      (hnested : ∀ n ∈ v.nested_volumes, OpenZero n) : OpenZero v

/-- An entry accepted by _entry_is_inside_volume is compressed or lies
within the volume bounds, and a compressed entry is only accepted when the
accepted list is nonempty. -/
theorem entryIsInsideVolume_spec {vb vsize : Int} {acc : List UefiEntry}
    {e : UefiEntry} (h : entryIsInsideVolume vb vsize acc e = true) :
    entryWithinVolume vb vsize e ∧ (acc = [] → e.base ≠ -1) := by
  unfold entryIsInsideVolume at h
  by_cases hb : e.base = -1
  · rw [if_neg (by simp [hb])] at h
    refine ⟨Or.inl hb, fun hnil => ?_⟩
    subst hnil
    simp at h
  · rw [if_pos hb] at h
    split_ifs at h with h1 h2 h3 h4
    exact ⟨Or.inr ⟨by omega, h4.2⟩, fun _ => hb⟩

/-- Whatever sizes enter _normalize_sizes of a volume, the three produced
buckets sum exactly to the volume size. -/
theorem volNormalize_sum {vsize : Int} {nested : List UEFIVolume}
    {ve : List UefiEntry} {c0 d0 e0 c d e : Int}
    (h : volNormalize vsize nested ve c0 d0 e0 = some (c, d, e)) :
    c + d + e = vsize := by
  simp only [volNormalize] at h
  cases hn : isNvarStoreVolume ve with
  | none => rw [hn] at h; simp at h
  | some b =>
    rw [hn] at h
    cases b
    · simp only [Option.some_inj, Prod.mk.injEq] at h
      omega
    · simp only [Option.some_inj, Prod.mk.injEq] at h
      omega

/-- Joint fuel induction for the walker: every constructed volume
satisfies the three recursive invariants, and the scan loop preserves them
on its accumulators. -/
theorem mkVolume_inv_aux : ∀ fuel : Nat,
    (∀ entries idx v, mkVolume fuel entries idx = some v →
       VolInv v ∧ SumInv v ∧ OpenZero v) ∧
    (∀ entries (vb vsize : Int) i accE accN res,
       parseVolumeLoop fuel entries vb vsize i accE accN = some res →
       (∀ e ∈ accE, entryWithinVolume vb vsize e) →
       headConcrete accE →
       (∀ n ∈ accN, VolInv n ∧ SumInv n ∧ OpenZero n) →
       ((∀ e ∈ res.1, entryWithinVolume vb vsize e) ∧ headConcrete res.1 ∧
        (∀ n ∈ res.2, VolInv n ∧ SumInv n ∧ OpenZero n))) := by
  intro fuel
  induction fuel with
  | zero =>
    constructor
    · intro entries idx v h
      simp [mkVolume] at h
    · intro entries vb vsize i accE accN res h _ _ _
      simp [parseVolumeLoop] at h
  | succ f ih =>
    obtain ⟨ihMk, ihLoop⟩ := ih
    constructor
    · intro entries idx v h
      cases hidx : entries[idx]? with
      | none => simp [mkVolume, hidx] at h
      | some head =>
        simp only [mkVolume, hidx] at h
        cases hloop : parseVolumeLoop f entries head.base head.size (idx + 1)
            [] [] with
        | none => rw [hloop] at h; simp at h
        | some res =>
          rw [hloop] at h
          obtain ⟨ve, nested⟩ := res
          dsimp only at h
          cases hnorm : volNormalize head.size nested ve 0
              (sumEntrySizes (classifyVolEntries ve).1)
              (sumEntrySizes (classifyVolEntries ve).2) with
          | none => rw [hnorm] at h; simp at h
          | some cde =>
            rw [hnorm] at h
            obtain ⟨c, d, e⟩ := cde
            simp only [Option.some_inj] at h
            subst h
            have hres := ihLoop entries head.base head.size (idx + 1) [] []
              (ve, nested) hloop (by simp)
              (by intro x hx; simp at hx) (by simp)
            obtain ⟨hent, hhead, hnest⟩ := hres
            have hsum := volNormalize_sum hnorm
            refine ⟨?_, ?_, ?_⟩
            · exact VolInv.intro _ hent hhead (fun n hn => (hnest n hn).1)
            · exact SumInv.intro _ (by simp; omega)
                (fun n hn => (hnest n hn).2.1)
            · exact OpenZero.intro _ rfl (fun n hn => (hnest n hn).2.2)
    · intro entries vb vsize i accE accN res h hAcc hHead hNest
      cases hei : entries[i]? with
      | none =>
        simp only [parseVolumeLoop, hei, Option.some_inj] at h
        subst h
        exact ⟨hAcc, hHead, hNest⟩
      | some e =>
        simp only [parseVolumeLoop, hei] at h
        by_cases hInside : entryIsInsideVolume vb vsize accE e = true
        · rw [if_pos hInside] at h
          have hspec := entryIsInsideVolume_spec hInside
          by_cases hNested : entryIsNestedVolume vb vsize e = true
          · rw [if_pos hNested] at h
            cases hmk : mkVolume f entries i with
            | none => rw [hmk] at h; simp at h
            | some nv =>
              rw [hmk] at h
              exact ihLoop entries vb vsize (i + 1) accE (accN ++ [nv]) res h
                hAcc hHead
                (by
                  intro n hn
                  rcases List.mem_append.mp hn with hn | hn
                  · exact hNest n hn
                  · simp at hn
                    subst hn
                    exact ihMk entries i n hmk)
          · rw [if_neg hNested] at h
            have hAcc1 : ∀ x ∈ accE ++ [e], entryWithinVolume vb vsize x := by
              intro x hx
              rcases List.mem_append.mp hx with hx | hx
              · exact hAcc x hx
              · simp at hx
                subst hx
                exact hspec.1
            have hHead1 : headConcrete (accE ++ [e]) := by
              cases accE with
              | nil =>
                intro x hx
                simp at hx
                subst hx
                exact hspec.2 rfl
              | cons a t =>
                intro x hx
                simp at hx
                subst hx
                exact hHead a rfl
            by_cases hSelf : entryIsSelfVolume vb vsize e = true
            · rw [if_pos hSelf] at h
              exact ihLoop entries vb vsize (i + 1) (accE ++ [e]) accN res h
                hAcc1 hHead1 hNest
            · rw [if_neg hSelf] at h
              by_cases hEnd : isEndOfVolume vb vsize e = true
              · rw [if_pos hEnd] at h
                simp only [Option.some_inj] at h
                subst h
                exact ⟨hAcc1, hHead1, hNest⟩
              · rw [if_neg hEnd] at h
                exact ihLoop entries vb vsize (i + 1) (accE ++ [e]) accN res h
                  hAcc1 hHead1 hNest
        · rw [if_neg hInside] at h
          by_cases hSelf : entryIsSelfVolume vb vsize e = true
          · rw [if_pos hSelf] at h
            exact ihLoop entries vb vsize (i + 1) accE accN res h
              hAcc hHead hNest
          · rw [if_neg hSelf] at h
            by_cases hEnd : isEndOfVolume vb vsize e = true
            · rw [if_pos hEnd] at h
              simp only [Option.some_inj] at h
              subst h
              exact ⟨hAcc, hHead, hNest⟩
            · rw [if_neg hEnd] at h
              exact ihLoop entries vb vsize (i + 1) accE accN res h
                hAcc hHead hNest

/-- The volume loop of the UEFI image metrics never changes
open_code_size when every volume reports zero open-source bytes. -/
theorem foldVolumes_open_zero (vols : List UEFIVolume)
    (h : ∀ v ∈ vols, v.open_code_size = 0) (s : UEFIImageSizes) :
    (vols.foldl uefiImageAddVolume s).open_code_size = s.open_code_size := by
  induction vols generalizing s with
  | nil => rfl
  | cons v t ih =>
    rw [List.foldl_cons, ih (fun x hx => h x (by simp [hx]))]
    simp [uefiImageAddVolume, h v (by simp)]

/-- Kconfig lookup returns none when no option carries the given name. -/
theorem getKconfigValue_eq_none (opts : List KconfigOpt) (o : String)
    (h : ∀ k ∈ opts, k.option ≠ o) : getKconfigValue opts o = none := by
  induction opts with
  | nil => rfl
  | cons k rest ih =>
    rw [getKconfigValue, if_neg (h k (by simp))]
    exact ih (fun x hx => h x (by simp [hx]))

/-- A successful Kconfig lookup returns the value of some option of that
name present in the list. -/
theorem getKconfigValue_mem (opts : List KconfigOpt) (o v : String)
    (h : getKconfigValue opts o = some v) :
    ∃ k ∈ opts, k.option = o ∧ k.value = v := by
  induction opts with
  | nil => simp [getKconfigValue] at h
  | cons k rest ih =>
    rw [getKconfigValue] at h
    by_cases hk : k.option = o
    · rw [if_pos hk] at h
      exact ⟨k, by simp, hk, Option.some_inj.mp h⟩
    · rw [if_neg hk] at h
      obtain ⟨x, hx, hxo, hxv⟩ := ih h
      exact ⟨x, by simp [hx], hxo, hxv⟩

/-- A volume child list of ten entries of which nine are NVAR entries:
exactly a 90 percent NVAR ratio. -/
def exNvarOne : UefiEntry := ⟨"NVAR entry", "Full", 0, 1, "- Var"⟩

/-- Ten entries, nine of type NVAR entry: the 90 percent boundary. -/
def exNvarEntries : List UefiEntry :=
  [exNvarOne, exNvarOne, exNvarOne, exNvarOne, exNvarOne, exNvarOne,
   exNvarOne, exNvarOne, exNvarOne, ⟨"File", "Pad", -1, 2, "- P"⟩]

/-! The claims. -/

/-- Claim C1, counterexample: the flashmap pipeline does not enforce the
bucket-closure equality at whole-image level.  A flashmap image of size
100 with a single non-CBFS region FOO of size 10 at offset 0 (and hence no
CBFS containers and no volumes, so every container of the image is
trivially non-degenerate) finishes DasharoCorebootImage._normalize_sizes
with open + closed + data + empty = 0 + 10 + 0 + 0 = 10, which differs
from the image size 100: the source only prints a warning there. -/
theorem claim_C1_counterexample :
    cbImageCalculateMetrics 100 [⟨"FOO", 0, 10, ""⟩] [] = some ⟨0, 10, 0, 0⟩ ∧
    ¬((0 : Int) + 10 + 0 + 0 = 100) :=
  ⟨by decide, by decide⟩

/-- Claim C1 as amended: after normalization the four buckets sum exactly
to the container size for every CBFS container with at least one parsed
file, for the whole UEFI image unconditionally, and for every successfully
constructed UEFI volume at every recursion depth (SumInv is recursive over
the nested volumes); the flashmap whole-image container is excluded, as
its normalization only warns (see the counterexample). -/
theorem claim_C1_amended :
    (∀ (sz : Int) (files : List CbfsFile) (s t : CBFSSizes),
       cbfsNormalizeSizes sz files s = some t →
       t.open_code_size + t.closed_code_size + t.data_size +
         t.empty_size = sz) ∧
    (∀ (isz : Int) (cR dR eS : List UefiEntry) (vols : List UEFIVolume),
       (uefiImageCalculateMetrics isz cR dR eS vols).open_code_size +
       (uefiImageCalculateMetrics isz cR dR eS vols).closed_code_size +
       (uefiImageCalculateMetrics isz cR dR eS vols).data_size +
       (uefiImageCalculateMetrics isz cR dR eS vols).empty_size = isz) ∧
    (∀ (fuel : Nat) (entries : List UefiEntry) (idx : Nat) (v : UEFIVolume),
       mkVolume fuel entries idx = some v → SumInv v) := by
  refine ⟨?_, ?_, ?_⟩
  · intro sz files s t h
    simp only [cbfsNormalizeSizes] at h
    cases hl : files.getLast? with
    | none => rw [hl] at h; simp at h
    | some last =>
      rw [hl] at h
      dsimp only at h
      simp only [Option.some_inj] at h
      subst h
      dsimp only
      omega
  · intro isz cR dR eS vols
    simp only [uefiImageCalculateMetrics, uefiImageNormalize]
    ring
  · intro fuel entries idx v h
    exact ((mkVolume_inv_aux fuel).1 entries idx v h).2.1

/-- Claim C1, witness for the amended statement: the CBFS part applied to
a container of size 100 with one file of size 35 at offset 0, and the
volume part applied to the example walker run. -/
theorem claim_C1_witness :
    ((⟨0, 0, 35, 65⟩ : CBFSSizes).open_code_size +
     (⟨0, 0, 35, 65⟩ : CBFSSizes).closed_code_size +
     (⟨0, 0, 35, 65⟩ : CBFSSizes).data_size +
     (⟨0, 0, 35, 65⟩ : CBFSSizes).empty_size = 100) ∧
    SumInv exOuterVolume :=
  ⟨claim_C1_amended.1 100 [⟨"f", 0, "raw", 35, "none"⟩] ⟨0, 0, 0, 0⟩
     ⟨0, 0, 35, 65⟩ (by decide),
   claim_C1_amended.2.2 10 exEntries 0 exOuterVolume rfl⟩

/-- Claim C2: evaluation of the walker on the example image shows the
double processing.  The entry exE2 belongs to the nested volume built for
exE1 (its only child), yet the very same entry is also appended to the
outer volume child list, because the source statement that increments the
loop index to skip the consumed entries rebinds the for-range variable
without effect.  The third conjunct records that exE1 was indeed
recognized and consumed as a nested volume of the outer volume. -/
theorem claim_C2_nested_entries_double_counted :
    (mkVolume 10 exEntries 0).map (fun v => v.volume_entries) = some [exE2] ∧
    (mkVolume 10 exEntries 0).map
        (fun v => v.nested_volumes.map (fun n => n.volume_entries)) =
      some [[exE2]] ∧
    entryIsNestedVolume exE0.base exE0.size exE1 = true :=
  ⟨by decide, by decide, by decide⟩

/-- Claim C3, counterexample: for a CBFS container of size 100 whose last
(and only) file ends at offset 35, the truncated gap is exactly 65, and
_normalize_sizes adds the whole 65 bytes to empty_size, not 1 byte as the
claim states. -/
theorem claim_C3_counterexample :
    (cbfsNormalizeSizes 100 [⟨"f", 0, "raw", 35, "none"⟩] ⟨0, 0, 0, 0⟩).map
        CBFSSizes.empty_size = some 65 ∧ ¬((65 : Int) = 0 + 1) :=
  ⟨by decide, by decide⟩

/-- Claim C3 as amended: with truncatedGap = cbfs_size minus (last file
offset + size), a gap of exactly 64 adds nothing to empty_size, and a gap
of exactly 65 adds the whole 65 bytes (the source adds the full gap
whenever it exceeds 64, not the excess over 64). -/
theorem claim_C3_amended (sz : Int) (files : List CbfsFile)
    (last : CbfsFile) (s : CBFSSizes) (h : files.getLast? = some last) :
    (sz - (last.size + last.offset) = 64 →
       ∃ t, cbfsNormalizeSizes sz files s = some t ∧
            t.empty_size = s.empty_size) ∧
    (sz - (last.size + last.offset) = 65 →
       ∃ t, cbfsNormalizeSizes sz files s = some t ∧
            t.empty_size = s.empty_size + 65) := by
  constructor
  · intro h64
    simp only [cbfsNormalizeSizes, h]
    rw [if_neg (by omega)]
    exact ⟨_, rfl, rfl⟩
  · intro h65
    simp only [cbfsNormalizeSizes, h]
    rw [if_pos (by omega)]
    refine ⟨_, rfl, ?_⟩
    simp
    omega

/-- Claim C3, witness: the gap-65 case of the amended statement at the
concrete container of size 100 with one file ending at 35. -/
theorem claim_C3_witness :
    ∃ t, cbfsNormalizeSizes 100 [⟨"f", 0, "raw", 35, "none"⟩] ⟨0, 0, 0, 0⟩ =
      some t ∧ t.empty_size = (⟨0, 0, 0, 0⟩ : CBFSSizes).empty_size + 65 :=
  (claim_C3_amended 100 [⟨"f", 0, "raw", 35, "none"⟩]
    ⟨"f", 0, "raw", 35, "none"⟩ ⟨0, 0, 0, 0⟩ (by decide)).2 (by decide)

/-- Claim C4: evaluation of _classify_file at the failing input.  The file
exRawDropped has filetype raw, its name is in none of the three raw name
lists and is not the computed iPXE ROM name; with ipxe_present true and
edk2_ipxe false the classification leaves the five lists unchanged, so the
file lands in none of them — in particular not in uncategorized_files as
the claim states: the iPXE branch of the source has an inner if with no
else, so the final else belongs to that chain and is skipped. -/
theorem claim_C4_raw_file_dropped :
    exRawDropped.filetype = "raw" ∧
    exRawDropped.filename ∉ RAW_DATA_FILES ∧
    exRawDropped.filename ∉ RAW_OPEN_SOURCE_FILES ∧
    exRawDropped.filename ∉ RAW_CLOSED_SOURCE_FILES ∧
    exRawDropped.filename ≠ "pci" ++ "10ec,8168" ++ ".rom" ∧
    classifyFile true false "10ec,8168" ⟨[], [], [], [], []⟩ exRawDropped =
      ⟨[], [], [], [], []⟩ :=
  ⟨rfl, by decide, by decide, by decide, by decide, by decide⟩

/-- Claim C5: evaluation of the code at the degenerate inputs.  A CBFS
container with zero parsed files does not complete _normalize_sizes: the
access cbfs_files[num_files - 1] raises KeyError (modelled by none), and a
UEFI volume with zero child entries does not complete
_is_nvar_store_volume: the ratio divides by zero (modelled by none) —
contrary to the claim, neither degenerate case is guarded. -/
theorem claim_C5_degenerate_inputs_error :
    cbfsNormalizeSizes 1024 [] ⟨0, 0, 0, 0⟩ = none ∧
    isNvarStoreVolume ([] : List UefiEntry) = none :=
  ⟨rfl, rfl⟩

/-- Claim C6: for a volume with at least one child entry, the volume is an
NVAR store volume exactly when the ratio nvar_count * 100 / total is at
least 90 (the exact rational comparison, so exactly 90 percent qualifies
and 89 percent does not), and _normalize_sizes adds the unclassified
remainder volume_size minus (empty + closed + data) — taken after folding
the nested volumes — to data_size for an NVAR store volume and to
closed_code_size otherwise. -/
theorem claim_C6_nvar_threshold_and_unclassified_fold
    (ve : List UefiEntry) (h : ve ≠ []) (vsize : Int)
    (nested : List UEFIVolume) (closed data empty : Int) :
    (isNvarStoreVolume ve = some true ↔
       (90 : ℚ) ≤ ((nvarCount ve : ℚ) * 100) / (ve.length : ℚ)) ∧
    (isNvarStoreVolume ve = some true →
       volNormalize vsize nested ve closed data empty =
         some (closed + (nested.map UEFIVolume.closed_code_size).sum,
               data + (nested.map UEFIVolume.data_size).sum +
                 (vsize - ((empty + (nested.map UEFIVolume.empty_size).sum) +
                   (closed + (nested.map UEFIVolume.closed_code_size).sum) +
                   (data + (nested.map UEFIVolume.data_size).sum))),
               empty + (nested.map UEFIVolume.empty_size).sum)) ∧
    (isNvarStoreVolume ve = some false →
       volNormalize vsize nested ve closed data empty =
         some (closed + (nested.map UEFIVolume.closed_code_size).sum +
                 (vsize - ((empty + (nested.map UEFIVolume.empty_size).sum) +
                   (closed + (nested.map UEFIVolume.closed_code_size).sum) +
                   (data + (nested.map UEFIVolume.data_size).sum))),
               data + (nested.map UEFIVolume.data_size).sum,
               empty + (nested.map UEFIVolume.empty_size).sum)) := by
  have hlen : ve.length ≠ 0 := fun hh => h (List.length_eq_zero.mp hh)
  refine ⟨?_, ?_, ?_⟩
  · rw [isNvarStoreVolume_ratio ve hlen]
    simp [decide_eq_true_iff]
  · intro htrue
    simp only [volNormalize, htrue]
  · intro hfalse
    simp only [volNormalize, hfalse]

/-- Claim C6, witness: the threshold part applied at the ten-entry child
list with nine NVAR entries, exactly the 90 percent boundary, which the
evaluation confirms to be classified as an NVAR store volume. -/
theorem claim_C6_witness :
    (isNvarStoreVolume exNvarEntries = some true ↔
       (90 : ℚ) ≤ ((nvarCount exNvarEntries : ℚ) * 100) /
         (exNvarEntries.length : ℚ)) ∧
    isNvarStoreVolume exNvarEntries = some true :=
  ⟨(claim_C6_nvar_threshold_and_unclassified_fold exNvarEntries (by decide)
      0 [] 0 0 0).1,
   by decide⟩

/-- Claim C7: in the flashmap pipeline, whenever the first region in parse
order has a nonzero offset, image normalization adds exactly that offset
to closed_code_size; in the UEFI pipeline the whole difference image_size
minus (open + closed + data + empty) is added to data_size, closed stays
unchanged, and in particular a 16-byte shortfall adds exactly 16 bytes to
data_size. -/
theorem claim_C7_reconciliation_asymmetry :
    (∀ (isz : Int) (regions : List Region) (r0 : Region) (s : CBFSSizes),
       regions.head? = some r0 → r0.offset ≠ 0 →
       cbImageNormalize isz regions s =
         some { s with closed_code_size := s.closed_code_size + r0.offset }) ∧
    (∀ (isz : Int) (s : UEFIImageSizes),
       (uefiImageNormalize isz s).data_size =
         s.data_size + (isz - (s.open_code_size + s.empty_size +
           s.closed_code_size + s.data_size)) ∧
       (uefiImageNormalize isz s).closed_code_size = s.closed_code_size ∧
       (s.open_code_size + s.empty_size + s.closed_code_size + s.data_size =
          isz - 16 → (uefiImageNormalize isz s).data_size =
            s.data_size + 16)) := by
  constructor
  · intro isz regions r0 s hhead hoff
    simp only [cbImageNormalize, hhead]
    rw [if_pos hoff]
  · intro isz s
    refine ⟨rfl, rfl, fun h16 => ?_⟩
    simp only [uefiImageNormalize]
    omega

/-- Claim C7, witness: a first region at offset 4096 adds 4096 to the
closed-source bytes of the flashmap image, and a UEFI image whose buckets
fall 16 bytes short of the image size gains exactly 16 data bytes. -/
theorem claim_C7_witness :
    cbImageNormalize 100 [⟨"SI_ALL", 4096, 10, ""⟩] ⟨1, 2, 3, 5⟩ =
      some ⟨1, 2 + 4096, 3, 5⟩ ∧
    (uefiImageNormalize 100 ⟨10, 20, 30, 24⟩).data_size = 30 + 16 :=
  ⟨claim_C7_reconciliation_asymmetry.1 100 [⟨"SI_ALL", 4096, 10, ""⟩]
     ⟨"SI_ALL", 4096, 10, ""⟩ ⟨1, 2, 3, 5⟩ rfl (by decide),
   (claim_C7_reconciliation_asymmetry.2 100 ⟨10, 20, 30, 24⟩).2.2
     (by decide)⟩

/-- Claim C8: every volume the walker constructs — at any recursion depth,
via the recursive predicate VolInv — accepts into volume_entries only
entries that have base -1 or satisfy volume_base ≤ base and base + size ≤
volume_base + volume_size, and an entry with base -1 only after at least
one entry was already accepted, so the first accepted child always has a
concrete base. -/
theorem claim_C8_children_within_bounds (fuel : Nat)
    (entries : List UefiEntry) (idx : Nat) (v : UEFIVolume)
    (h : mkVolume fuel entries idx = some v) : VolInv v :=
  ((mkVolume_inv_aux fuel).1 entries idx v h).1

/-- Claim C8, witness: the containment invariant holds of the volume
constructed from the example entry list. -/
theorem claim_C8_witness : VolInv exOuterVolume :=
  claim_C8_children_within_bounds 10 exEntries 0 exOuterVolume rfl

/-- Claim C9, counterexample: the option list exOptsDup contains PXE with
value y, contains no PXE_ROM option and contains no EDK2_ENABLE_IPXE
option with value y, yet _check_for_ipxe leaves ipxe_present false,
because the lookup returns the value of the first PXE option, which is n:
the claim as stated fails on lists where PXE occurs more than once. -/
theorem claim_C9_counterexample :
    (⟨"PXE", "y"⟩ : KconfigOpt) ∈ exOptsDup ∧
    exOptsDup.all (fun k => k.option != "PXE_ROM") = true ∧
    exOptsDup.all (fun k => !(k.option == "EDK2_ENABLE_IPXE" &&
      k.value == "y")) = true ∧
    (checkForIpxe exOptsDup).ipxe_present = false :=
  ⟨by decide, by decide, by decide, by decide⟩

/-- Claim C9 as amended: if the Kconfig lookup of PXE returns y (that is,
the first PXE option in the extracted list has value y), the list contains
no PXE_ROM option, and it does not contain EDK2_ENABLE_IPXE with value y,
then ipxe_present is true and edk2_ipxe is false; and whenever PXE_ROM_ID
is absent from the options, ipxe_rom_id is the default 10ec,8168. -/
theorem claim_C9_amended (opts : List KconfigOpt)
    (h1 : getKconfigValue opts "PXE" = some "y")
    (h2 : ∀ k ∈ opts, k.option ≠ "PXE_ROM")
    (h3 : ∀ k ∈ opts, ¬(k.option = "EDK2_ENABLE_IPXE" ∧ k.value = "y")) :
    (checkForIpxe opts).ipxe_present = true ∧
    (checkForIpxe opts).edk2_ipxe = false ∧
    ((∀ k ∈ opts, k.option ≠ "PXE_ROM_ID") →
       (checkForIpxe opts).ipxe_rom_id = "10ec,8168") := by
  have hE : getKconfigValue opts "EDK2_ENABLE_IPXE" ≠ some "y" := by
    intro hc
    obtain ⟨k, hk, hko, hkv⟩ := getKconfigValue_mem _ _ _ hc
    exact h3 k hk ⟨hko, hkv⟩
  have hR : getKconfigValue opts "PXE_ROM" = none :=
    getKconfigValue_eq_none _ _ h2
  refine ⟨?_, ?_, ?_⟩
  · simp [checkForIpxe, hE, h1, hR]
  · simp [checkForIpxe, hE, h1]
  · intro h4
    simp [checkForIpxe, getKconfigValue_eq_none _ _ h4]

/-- Claim C9, witness for the amended statement: the single-option list
with PXE=y, the configuration of spec scenario C. -/
theorem claim_C9_witness :
    (checkForIpxe [⟨"PXE", "y"⟩]).ipxe_present = true ∧
    (checkForIpxe [⟨"PXE", "y"⟩]).edk2_ipxe = false ∧
    ((∀ k ∈ [(⟨"PXE", "y"⟩ : KconfigOpt)], k.option ≠ "PXE_ROM_ID") →
       (checkForIpxe [⟨"PXE", "y"⟩]).ipxe_rom_id = "10ec,8168") :=
  claim_C9_amended [⟨"PXE", "y"⟩] (by decide) (by decide) (by decide)

/-- Claim C10: every volume the walker constructs reports zero open-source
bytes at every recursion depth (OpenZero is recursive over the nested
volumes), and the UEFI image metrics, which start open_code_size at 0 and
add only the volume contributions before a normalization that never
touches open_code_size, report zero open-source bytes whenever all its
volumes do. -/
theorem claim_C10_open_source_always_zero :
    (∀ (fuel : Nat) (entries : List UefiEntry) (idx : Nat) (v : UEFIVolume),
       mkVolume fuel entries idx = some v → OpenZero v) ∧
    (∀ (isz : Int) (cR dR eS : List UefiEntry) (vols : List UEFIVolume),
       (∀ v ∈ vols, v.open_code_size = 0) →
       (uefiImageCalculateMetrics isz cR dR eS vols).open_code_size = 0) := by
  constructor
  · intro fuel entries idx v h
    exact ((mkVolume_inv_aux fuel).1 entries idx v h).2.2
  · intro isz cR dR eS vols h
    show (uefiImageNormalize _ _).open_code_size = 0
    rw [show ∀ (i : Int) (s : UEFIImageSizes),
          (uefiImageNormalize i s).open_code_size = s.open_code_size
        from fun _ _ => rfl]
    rw [foldVolumes_open_zero vols h]

/-- Claim C10, witness: the example volume reports zero open-source bytes
and so does the image aggregating it. -/
theorem claim_C10_witness :
    OpenZero exOuterVolume ∧
    (uefiImageCalculateMetrics 100 [] [] [] [exOuterVolume]).open_code_size
      = 0 :=
  ⟨claim_C10_open_source_always_zero.1 10 exEntries 0 exOuterVolume rfl,
   claim_C10_open_source_always_zero.2 100 [] [] [] [exOuterVolume]
     (fun v hv => by simp at hv; subst hv; rfl)⟩

end OpennessScore
